import Mathlib

/-!
Verification development for the `cpg_image_pipeline` repository.

The repository is a product-photography pipeline: it loads a product photo,
separates the product from its background (external segmentation model),
refines the mask, obtains a new background (diffusion inpainting, or an
external text-to-image call), and composites the product over the new
background.

We shallow-embed the repository's own raster code (mask morphology,
thresholding, bounding boxes, alpha compositing, shadow synthesis, the
load/normalize step, and the two `generate` pipelines) as executable Lean
definitions.  Images are modelled as width/height plus a total pixel
function; 8-bit pixel values are `Nat` (in-range facts carry explicit
`≤ 255` bounds).  PIL's fixed-point blend macro `MULDIV255` is modelled
exactly; the floating-point shadow arithmetic is modelled over `ℚ` with the
`uint8` cast as `Int.floor`/`toNat`.

External library primitives that the code calls but does not implement
(PIL's Gaussian blur and LANCZOS resampling) are modelled as an abstract
`PILModel` carrying the facts the code relies on: they preserve the target
dimensions, they do not produce values above 255 on byte images, and the
blur (a normalized convolution) never exceeds a pointwise bound and fixes
constant images.  The neural models and the Gemini API are abstract fields
of a `Backend` structure, as the spec treats them as black boxes.
-/

namespace CPG

/-- Grayscale image, PIL mode `L` (used for masks): width, height and a
total pixel function `px x y` with `x` the column and `y` the row. -/
structure Img where
  w : Nat
  h : Nat
  px : Nat → Nat → Nat

/-- RGB image: pixel function `px x y c` for channel `c`. -/
structure RGBImg where
  w : Nat
  h : Nat
  px : Nat → Nat → Fin 3 → Nat

/-- RGBA image: RGB channels plus an alpha channel. -/
structure RGBAImg where
  w : Nat
  h : Nat
  rgb : Nat → Nat → Fin 3 → Nat
  alpha : Nat → Nat → Nat

/-- Constant grayscale image. -/
def constImg (w h c : Nat) : Img := ⟨w, h, fun _ _ => c⟩

/-- PIL's fixed-point byte multiply `MULDIV255(a, b)`:
`t = a*b + 128; ((t >> 8) + t) >> 8`, i.e. `a*b/255` rounded to nearest.
This is the per-term arithmetic of `Image.paste` with a mask and of
`Image.composite`. -/
def muldiv255 (a b : Nat) : Nat :=
  ((a * b + 128) / 256 + (a * b + 128)) / 256

/-- Abstract model of the PIL raster primitives the repository calls but
does not implement: `ImageFilter.GaussianBlur` on `L` images and
`Image.resize` (LANCZOS) on `L` and RGB images.  The fields record the
facts the code relies on: resampling hits the requested size and (after
PIL's byte clamping) stays within byte range; Gaussian blur is a
normalized nonnegative convolution, so it preserves the image size, never
exceeds a pointwise bound, and fixes constant images. -/
structure PILModel where
  gaussian_blur : Nat → Img → Img
  resize_L : Nat → Nat → Img → Img
  resize_RGB : Nat → Nat → RGBImg → RGBImg
  gaussian_blur_w : ∀ r m, (gaussian_blur r m).w = m.w
  gaussian_blur_h : ∀ r m, (gaussian_blur r m).h = m.h
  gaussian_blur_le : ∀ r m B, (∀ x y, m.px x y ≤ B) →
    ∀ x y, (gaussian_blur r m).px x y ≤ B
  gaussian_blur_const : ∀ r w h c, gaussian_blur r (constImg w h c) = constImg w h c
  resize_L_w : ∀ a b m, (resize_L a b m).w = a
  resize_L_h : ∀ a b m, (resize_L a b m).h = b
  resize_L_le : ∀ a b m, (∀ x y, m.px x y ≤ 255) →
    ∀ x y, (resize_L a b m).px x y ≤ 255
  resize_RGB_w : ∀ a b m, (resize_RGB a b m).w = a
  resize_RGB_h : ∀ a b m, (resize_RGB a b m).h = b
  resize_RGB_le : ∀ a b m, (∀ x y c, m.px x y c ≤ 255) →
    ∀ x y c, (resize_RGB a b m).px x y c ≤ 255

/-- A concrete `PILModel` instance (identity blur, clamping
nearest-pixel resize).  On the 1×1 and constant images used in concrete
evaluations it agrees with the real PIL primitives. -/
def pilId : PILModel where
  gaussian_blur := fun _ m => m
  resize_L := fun a b m => ⟨a, b, fun x y => min (m.px x y) 255⟩
  resize_RGB := fun a b m => ⟨a, b, fun x y c => min (m.px x y c) 255⟩
  gaussian_blur_w := fun _ _ => rfl
  gaussian_blur_h := fun _ _ => rfl
  gaussian_blur_le := fun _ _ _ hb => hb
  gaussian_blur_const := fun _ _ _ _ => rfl
  resize_L_w := fun _ _ _ => rfl
  resize_L_h := fun _ _ _ => rfl
  resize_L_le := fun _ _ _ _ _ _ => min_le_right _ _
  resize_RGB_w := fun _ _ _ => rfl
  resize_RGB_h := fun _ _ _ => rfl
  resize_RGB_le := fun _ _ _ _ _ _ _ => min_le_right _ _

/-! ## `modules/mask_processor.py` -/

/-- The `mask_processing` section of the configuration, with the default
values used by `config.get`. -/
structure MaskConfig where
  expand_mask : Int := 10
  feather_pixels : Int := 3
  blur_amount : Nat := 5

/-- `scipy.ndimage`'s index handling for the default boundary mode
`reflect`: `(d c b a | a b c d | d c b a)`.  In-range indices map to
themselves. -/
def reflectIdx (n : Nat) (i : Int) : Nat :=
  if i < 0 then (-i - 1).toNat
  else if (n : Int) ≤ i then (2 * (n : Int) - i - 1).toNat
  else i.toNat

/-- The pixels inspected by `scipy.ndimage.maximum_filter(size := 2*p+1)`
at `(x, y)`: the window of radius `p` centred there, boundary-reflected. -/
def windowVals (m : Img) (p : Nat) (x y : Nat) : List Nat :=
  (List.range (2 * p + 1)).flatMap fun (dy : Nat) =>
    (List.range (2 * p + 1)).map fun (dx : Nat) =>
      m.px (reflectIdx m.w ((x : Int) + (dx : Int) - (p : Int)))
           (reflectIdx m.h ((y : Int) + (dy : Int) - (p : Int)))

/-- `scipy.ndimage.maximum_filter(mask_array, size := 2*p+1)`. -/
def maxFilter (m : Img) (p : Nat) : Img :=
  { w := m.w, h := m.h, px := fun x y => (windowVals m p x y).foldr max 0 }

/-- `MaskProcessor._expand_mask`: identity for `pixels ≤ 0`, otherwise a
maximum filter of window size `2*pixels + 1`. -/
def expand_mask (m : Img) (pixels : Int) : Img :=
  if pixels ≤ 0 then m else maxFilter m pixels.toNat

/-- `MaskProcessor._feather_edges`: identity for `pixels ≤ 0`, otherwise
a Gaussian blur of the given radius. -/
def feather_edges (P : PILModel) (m : Img) (pixels : Int) : Img :=
  if pixels ≤ 0 then m else P.gaussian_blur pixels.toNat m

/-- `PIL.ImageOps.invert` on an `L` image: `255 - v` per pixel. -/
def invert (m : Img) : Img :=
  { w := m.w, h := m.h, px := fun x y => 255 - m.px x y }

/-- `MaskProcessor._prepare_inpainting_mask`: expand, feather, invert. -/
def prepare_inpainting_mask (P : PILModel) (c : MaskConfig) (m : Img) : Img :=
  invert (feather_edges P (expand_mask m c.expand_mask) c.feather_pixels)

/-- `MaskProcessor._prepare_compositing_mask`: Gaussian blur by
`blur_amount`. -/
def prepare_compositing_mask (P : PILModel) (c : MaskConfig) (m : Img) : Img :=
  P.gaussian_blur c.blur_amount m

/-- The `operation` argument of `MaskProcessor.process_mask`. -/
inductive MaskOp where
  | for_inpainting
  | for_compositing
  | unknown
  deriving DecidableEq

/-- `MaskProcessor.process_mask`. -/
def process_mask (P : PILModel) (c : MaskConfig) (m : Img) : MaskOp → Img
  | .for_inpainting => prepare_inpainting_mask P c m
  | .for_compositing => prepare_compositing_mask P c m
  | .unknown => m

/-- `MaskProcessor.refine_mask`: threshold to a binary mask
(`mask_array > threshold` scaled to 255). -/
def refine_mask (m : Img) (threshold : Nat := 128) : Img :=
  { w := m.w, h := m.h, px := fun x y => if threshold < m.px x y then 255 else 0 }

/-! ## `modules/compositing_engine.py` -/

/-- The `compositing` section of the configuration, with the default
values used by `config.get` / `comp_config.get`.  The shadow opacity is a
Python float; we model it over `ℚ`. -/
structure CompConfig where
  edge_refinement : Bool := true
  shadow_generation : Bool := true
  color_matching : Bool := true
  shadow_opacity : ℚ := 3 / 10
  shadow_blur : Nat := 15

/-- The numpy row shift in `CompositingEngine._add_shadow`:
`shadow_shifted[k:, :] = shadow_array[:-k, :]` with the first `k` rows
left zero. -/
def shift_down (k : Nat) (m : Img) : Img :=
  { w := m.w, h := m.h, px := fun x y => if y < k then 0 else m.px x (y - k) }

/-- The shadow mask built by `CompositingEngine._add_shadow`: the product
mask shifted down by 20 rows, then Gaussian-blurred by `shadow_blur`. -/
def shadow_mask (P : PILModel) (cc : CompConfig) (mask : Img) : Img :=
  P.gaussian_blur cc.shadow_blur (shift_down 20 mask)

/-- `CompositingEngine._add_shadow`: darken the background pointwise by
the factor `1 - opacity * shadow/255` (float arithmetic modelled over
`ℚ`; the `astype(np.uint8)` truncation of the nonnegative result is
`Int.floor`/`toNat`). -/
def add_shadow (P : PILModel) (cc : CompConfig) (background : RGBImg) (mask : Img) : RGBImg :=
  { w := background.w, h := background.h,
    px := fun x y c =>
      (⌊(background.px x y c : ℚ) *
          (1 - ((shadow_mask P cc mask).px x y : ℚ) / 255 * cc.shadow_opacity)⌋).toNat }

/-- The background actually blended by `CompositingEngine.composite`: the
given background, LANCZOS-resized to the foreground size when the sizes
differ. -/
def used_background (P : PILModel) (fg : RGBAImg) (bg : RGBImg) : RGBImg :=
  if fg.w = bg.w ∧ fg.h = bg.h then bg else P.resize_RGB fg.w fg.h bg

/-- `foreground_rgba.split()[3]`: the alpha channel as an `L` image. -/
def alpha_channel (fg : RGBAImg) : Img := ⟨fg.w, fg.h, fg.alpha⟩

/-- The mask actually used by `CompositingEngine.composite`: the
foreground's alpha channel when no mask is given, else the given mask,
LANCZOS-resized to the foreground size when the sizes differ. -/
def used_mask (P : PILModel) (fg : RGBAImg) : Option Img → Img
  | none => alpha_channel fg
  | some m => if m.w = fg.w ∧ m.h = fg.h then m else P.resize_L fg.w fg.h m

/-- `CompositingEngine._refine_edges` (Gaussian blur of radius 1),
applied when `edge_refinement` is enabled. -/
def refined_mask (P : PILModel) (cc : CompConfig) (fg : RGBAImg) (mask0 : Option Img) : Img :=
  if cc.edge_refinement then P.gaussian_blur 1 (used_mask P fg mask0)
  else used_mask P fg mask0

/-- The background after the optional shadow pass of
`CompositingEngine.composite`. -/
def shadowed_background (P : PILModel) (cc : CompConfig) (fg : RGBAImg) (bg : RGBImg)
    (mask0 : Option Img) : RGBImg :=
  if cc.shadow_generation then
    add_shadow P cc (used_background P fg bg) (refined_mask P cc fg mask0)
  else used_background P fg bg

/-- `Image.new('RGB', size)` followed by
`paste(foreground_rgba, mask := alpha)`: the foreground RGB channels
premultiplied (over black) by the foreground's own alpha, with PIL's
per-term rounding. -/
def premultiplied (fg : RGBAImg) : RGBImg :=
  { w := fg.w, h := fg.h, px := fun x y c => muldiv255 (fg.rgb x y c) (fg.alpha x y) }

/-- `CompositingEngine._match_colors`: returns the composited image
unchanged. -/
def match_colors (composited : RGBImg) (_foreground : RGBImg) (_mask : Img) : RGBImg :=
  composited

/-- `CompositingEngine.composite`: resize background/mask to the
foreground size if needed, optionally refine the mask edges, optionally
shadow the background, premultiply the foreground by its alpha over
black, and blend with `Image.composite` (PIL `BLEND`:
`MULDIV255(bg, 255-m) + MULDIV255(fg, m)` per pixel), then the identity
color-match pass. -/
def composite (P : PILModel) (cc : CompConfig) (fg : RGBAImg) (bg : RGBImg)
    (mask0 : Option Img) : RGBImg :=
  let blended : RGBImg :=
    { w := fg.w, h := fg.h,
      px := fun x y c =>
        muldiv255 ((shadowed_background P cc fg bg mask0).px x y c)
            (255 - (refined_mask P cc fg mask0).px x y)
        + muldiv255 ((premultiplied fg).px x y c) ((refined_mask P cc fg mask0).px x y) }
  if cc.color_matching then
    match_colors blended (premultiplied fg) (refined_mask P cc fg mask0)
  else blended

/-! ## `modules/image_loader.py` -/

/-- The result of `PIL.Image.open` on an existing file, classified by
mode as `ImageLoader.load_image` does.  The non-RGB, non-RGBA modes
(`P`, `L`, `CMYK`, ...) are all sent through PIL's `convert('RGB')`,
which is external; `other` carries that converted RGB image. -/
inductive Decoded where
  | rgb (i : RGBImg)
  | rgba (i : RGBAImg)
  | other (converted : RGBImg)

/-- The RGBA branch of `ImageLoader.load_image`: paste the image onto a
white background using its alpha as mask (PIL `BLEND` arithmetic). -/
def flatten_white (i : RGBAImg) : RGBImg :=
  { w := i.w, h := i.h,
    px := fun x y c =>
      muldiv255 255 (255 - i.alpha x y) + muldiv255 (i.rgb x y c) (i.alpha x y) }

/-- The mode-conversion step of `ImageLoader.load_image`. -/
def to_rgb : Decoded → RGBImg
  | .rgb i => i
  | .rgba i => flatten_white i
  | .other i => i

/-- `ImageLoader._resize_if_needed`: when the larger dimension exceeds
`max_dimension`, scale both dimensions by `max_dimension / max(w, h)`
(LANCZOS).  Python computes `int(width * scale)` with a float `scale`;
the exact rational value `w * maxDim / m` is the same floor except for
ulp-level corner cases. -/
def resize_if_needed (P : PILModel) (maxDim : Nat) (i : RGBImg) : RGBImg :=
  let m := max i.w i.h
  if maxDim < m then P.resize_RGB (i.w * maxDim / m) (i.h * maxDim / m) i else i

/-- `ImageLoader.load_image` on an already-decoded input: convert to RGB,
then resize if needed. -/
def load_image (P : PILModel) (maxDim : Nat) (d : Decoded) : RGBImg :=
  resize_if_needed P maxDim (to_rgb d)

/-! ## `modules/foreground_extractor.py` -/

/-- The in-range coordinates of nonzero mask pixels, scanned row by row
(`PIL.Image.getbbox` looks at exactly these). -/
def nonzero_coords (m : Img) : List (Nat × Nat) :=
  (List.range m.h).flatMap fun y =>
    (List.range m.w).filterMap fun x =>
      if m.px x y ≠ 0 then some (x, y) else none

/-- `PIL.Image.getbbox` on an `L` image: `none` when the image has no
nonzero pixel, else `(left, upper, right, lower)` with `right`/`lower`
exclusive. -/
def getbbox (m : Img) : Option (Nat × Nat × Nat × Nat) :=
  match nonzero_coords m with
  | [] => none
  | c :: cs =>
    some (((c :: cs).map Prod.fst).foldr min c.1,
          ((c :: cs).map Prod.snd).foldr min c.2,
          ((c :: cs).map Prod.fst).foldr max 0 + 1,
          ((c :: cs).map Prod.snd).foldr max 0 + 1)

/-- `ForegroundExtractor.get_bounding_box`: `None` when `getbbox` finds
no foreground, else `(x, y, width, height)`. -/
def get_bounding_box (m : Img) : Option (Nat × Nat × Nat × Nat) :=
  match getbbox m with
  | none => none
  | some (x, y, r, lo) => some (x, y, r - x, lo - y)

/-! ## The two pipelines (`methods/method1_controlnet_inpaint.py`,
`methods/method2_nanobanana_composite.py`)

The substantive computation of the stages that call pretrained models or
the hosted API (file decoding, `rembg` segmentation, ControlNet
inpainting, Gemini image generation, prompt generation/templating) is
external to the repository; it is modelled as the abstract fields of a
`Backend`.  The repository's own wiring of those calls is embedded
exactly. -/

/-- The external collaborators of the pipeline. -/
structure Backend where
  pil : PILModel
  /-- `PIL.Image.open` on the input path. -/
  decode : String → Decoded
  /-- `rembg.remove`: RGBA foreground with transparent background. -/
  remove_bg : RGBImg → RGBAImg
  /-- `ControlNetHandler.inpaint_background image mask prompt`. -/
  inpaint : RGBImg → Img → String → RGBImg
  /-- The Gemini image-generation call inside
  `NanoBananaAPI.generate_background`. -/
  gemini_image : String → RGBImg
  /-- `AutoPromptGenerator.generate_for_method1` (prompt component). -/
  auto_prompt1 : RGBImg → String
  /-- `AutoPromptGenerator.generate_for_method2` (prompt component). -/
  auto_prompt2 : RGBImg → String
  /-- `Method1ControlNetInpaint._build_controlnet_prompt` (string
  templating plus the optional Gemini prompt enhancer). -/
  build_prompt1 : String → String
  /-- `Method2NanoBananaComposite._build_background_prompt`. -/
  build_prompt2 : String → String

/-- `ForegroundExtractor.extract_foreground`: run `rembg` and take the
alpha channel of the RGBA result as the mask.  (We keep the
`foreground`/`mask` components; `original` is the input itself.) -/
def extract_foreground (B : Backend) (image : RGBImg) : RGBAImg × Img :=
  let fg := B.remove_bg image
  (fg, alpha_channel fg)

/-- The hard-coded prompt that `NanoBananaAPI.generate_background`
actually sends (`contents = [test_prompt]`); the `prompt` argument is
ignored. -/
def nano_test_prompt : String :=
  "Create a vibrant outdoor picnic scene background. The main element is a pink and purple checkered picnic blanket spread on bright green grass. Scattered on and around the blanket are colorful faux flowers in hot pink, yellow, and orange. A pair of trendy sunglasses with neon frames sits on the blanket. The scene is photographed from slightly above at a 45-degree angle. Bright natural sunlight creates soft shadows. The atmosphere is playful, youthful, and Instagram-worthy. The background should be sharp and detailed with natural bokeh in the distance showing more grass and flowers. Commercial photography quality, vibrant colors, Gen-Z aesthetic. Background only - no products, no text."

/-- `NanoBananaAPI.generate_background` (success path): obtain the
generated image and LANCZOS-resize it to the requested size if it
differs.  Note the passed `prompt` is unused by the source. -/
def generate_background (B : Backend) (prompt : String) (width height : Nat) : RGBImg :=
  let image := B.gemini_image nano_test_prompt
  if image.w = width ∧ image.h = height then image
  else B.pil.resize_RGB width height image

/-- Top-level configuration (the fields the pipelines read). -/
structure Config where
  max_dimension : Nat := 2048
  mask_cfg : MaskConfig := {}
  comp_cfg : CompConfig := {}

/-- The pipeline stages, in the order the `generate` methods log and
execute them (saving and the optional visualization are the final
stage). -/
inductive Stage where
  | load
  | extractFg
  | maskProc
  | promptGen
  | inpaintBg
  | nanoBg
  | compositeFg
  | saveOut
  deriving DecidableEq

/-- `Method1ControlNetInpaint.generate` (success path): load, extract
foreground, prepare the inpainting mask, build/auto-generate the prompt,
inpaint with ControlNet, save the inpainting result.  Returns the image
passed to `save_image` together with the executed stage trace. -/
def method1_generate (B : Backend) (cfg : Config) (input_path : String)
    (prompt : Option String) : RGBImg × List Stage :=
  let original := load_image B.pil cfg.max_dimension (B.decode input_path)
  let ex := extract_foreground B original
  let inpaint_mask := process_mask B.pil cfg.mask_cfg ex.2 .for_inpainting
  let final_prompt :=
    match prompt with
    | none => B.auto_prompt1 original
    | some p => B.build_prompt1 p
  let result := B.inpaint original inpaint_mask final_prompt
  (result, [.load, .extractFg, .maskProc, .promptGen, .inpaintBg, .saveOut])

/-- `Method2NanoBananaComposite.generate` (success path): load, extract
foreground, prepare the compositing mask, build/auto-generate the
background prompt, generate the background at the loaded image's size,
composite the extracted foreground over it, save the composite.  Returns
the image passed to `save_image` together with the executed stage
trace. -/
def method2_generate (B : Backend) (cfg : Config) (input_path : String)
    (prompt : Option String) : RGBImg × List Stage :=
  let original := load_image B.pil cfg.max_dimension (B.decode input_path)
  let ex := extract_foreground B original
  let composite_mask := process_mask B.pil cfg.mask_cfg ex.2 .for_compositing
  let background_prompt :=
    match prompt with
    | none => B.auto_prompt2 original
    | some p => B.build_prompt2 p
  let background := generate_background B background_prompt original.w original.h
  let result := composite B.pil cfg.comp_cfg ex.1 background (some composite_mask)
  (result, [.load, .extractFg, .maskProc, .promptGen, .nanoBg, .compositeFg, .saveOut])

/-- A concrete backend over 1×1 images, for evaluating the pipelines at
a concrete input. -/
def testBackend : Backend where
  pil := pilId
  decode := fun _ => .rgb ⟨1, 1, fun _ _ _ => 50⟩
  remove_bg := fun _ => ⟨1, 1, fun _ _ _ => 200, fun _ _ => 0⟩
  inpaint := fun image _ _ => image
  gemini_image := fun _ => ⟨1, 1, fun _ _ _ => 50⟩
  auto_prompt1 := fun _ => "p1"
  auto_prompt2 := fun _ => "p2"
  build_prompt1 := fun s => s
  build_prompt2 := fun s => s

/-! ## Helper lemmas -/

/-- PIL's `MULDIV255` is `a*b/255` rounded to nearest (ties up). -/
theorem muldiv255_eq (a b : Nat) (ha : a ≤ 255) (hb : b ≤ 255) :
    muldiv255 a b = (a * b + 127) / 255 := by
  have h : a * b ≤ 65025 := Nat.mul_le_mul ha hb
  unfold muldiv255
  generalize a * b = n at *
  omega

/-- `MULDIV255` stays in byte range. -/
theorem muldiv255_le (a b : Nat) (ha : a ≤ 255) (hb : b ≤ 255) :
    muldiv255 a b ≤ 255 := by
  have h : a * b ≤ 65025 := Nat.mul_le_mul ha hb
  rw [muldiv255_eq a b ha hb]
  omega

/-- `255 * MULDIV255(a, b)` is within 127 of `a * b`. -/
theorem muldiv255_bound (a b : Nat) (ha : a ≤ 255) (hb : b ≤ 255) :
    ((255 : ℤ) * muldiv255 a b - (a : ℤ) * b).natAbs ≤ 127 := by
  have h : a * b ≤ 65025 := Nat.mul_le_mul ha hb
  rw [muldiv255_eq a b ha hb]
  omega

theorem le_foldr_max {a : Nat} : ∀ {l : List Nat}, a ∈ l → ∀ i, a ≤ l.foldr max i := by
  intro l
  induction l with
  | nil => intro h; cases h
  | cons b t ih =>
    intro h i
    rcases List.mem_cons.mp h with h1 | h2
    · subst h1; exact le_max_left _ _
    · exact le_trans (ih h2 i) (le_max_right _ _)

theorem foldr_min_le {a : Nat} : ∀ {l : List Nat}, a ∈ l → ∀ i, l.foldr min i ≤ a := by
  intro l
  induction l with
  | nil => intro h; cases h
  | cons b t ih =>
    intro h i
    rcases List.mem_cons.mp h with h1 | h2
    · subst h1; exact min_le_left _ _
    · exact le_trans (min_le_right _ _) (ih h2 i)

/-- In-range indices are fixed by `reflect` boundary handling. -/
theorem reflectIdx_of_lt {n x : Nat} (h : x < n) : reflectIdx n (x : Int) = x := by
  simp only [reflectIdx]
  rw [if_neg (by omega), if_neg (by omega)]
  omega

/-- The centre pixel belongs to the maximum filter's window. -/
theorem mem_windowVals (m : Img) (p : Nat) (x y : Nat) (hx : x < m.w) (hy : y < m.h) :
    m.px x y ∈ windowVals m p x y := by
  have hx' : (x : Int) + p - p = (x : Int) := by ring
  have hy' : (y : Int) + p - p = (y : Int) := by ring
  unfold windowVals
  simp only [List.mem_flatMap, List.mem_map, List.mem_range]
  exact ⟨p, by omega, p, by omega,
    by rw [hx', hy', reflectIdx_of_lt hx, reflectIdx_of_lt hy]⟩

theorem mem_nonzero_coords {m : Img} {x y : Nat} (hx : x < m.w) (hy : y < m.h)
    (hpx : m.px x y ≠ 0) : (x, y) ∈ nonzero_coords m := by
  unfold nonzero_coords
  refine List.mem_flatMap.mpr ⟨y, List.mem_range.mpr hy, ?_⟩
  refine List.mem_filterMap.mpr ⟨x, List.mem_range.mpr hx, ?_⟩
  simp [hpx]

theorem nonzero_coords_px {m : Img} {q : Nat × Nat} (h : q ∈ nonzero_coords m) :
    q.1 < m.w ∧ q.2 < m.h ∧ m.px q.1 q.2 ≠ 0 := by
  unfold nonzero_coords at h
  obtain ⟨y, hy, h2⟩ := List.mem_flatMap.mp h
  obtain ⟨x, hx, h3⟩ := List.mem_filterMap.mp h2
  by_cases hz : m.px x y = 0
  · simp [hz] at h3
  · simp only [hz, ne_eq, not_false_eq_true, if_true, Option.some_inj] at h3
    subst h3
    exact ⟨List.mem_range.mp hx, List.mem_range.mp hy, hz⟩

theorem nonzero_coords_eq_nil {m : Img}
    (h : ∀ x, x < m.w → ∀ y, y < m.h → m.px x y = 0) : nonzero_coords m = [] := by
  refine List.eq_nil_iff_forall_not_mem.mpr fun q hq => ?_
  obtain ⟨h1, h2, h3⟩ := nonzero_coords_px hq
  exact h3 (h q.1 h1 q.2 h2)

/-! ## Claim theorems -/

/-- C10: `MaskProcessor.refine_mask` returns a same-size binary mask:
255 exactly where the input pixel is strictly greater than the
threshold, 0 otherwise, with no intermediate grey values. -/
theorem C10_thm (m : Img) (t : Nat) :
    (refine_mask m t).w = m.w ∧ (refine_mask m t).h = m.h ∧
    (∀ x y, (refine_mask m t).px x y = if t < m.px x y then 255 else 0) ∧
    (∀ x y, (refine_mask m t).px x y = 255 ∨ (refine_mask m t).px x y = 0) := by
  refine ⟨rfl, rfl, fun x y => rfl, fun x y => ?_⟩
  by_cases h : t < m.px x y <;> simp [refine_mask, h]

/-- C2: `MaskProcessor.process_mask` with operation `for_inpainting`
dilates by the configured pixel count, feathers by the configured
radius, then inverts: the result is `invert (feather (dilate mask))`,
i.e. `255 - feather(dilate(mask))` per pixel. -/
theorem C2_thm (P : PILModel) (c : MaskConfig) (m : Img) :
    process_mask P c m .for_inpainting =
      invert (feather_edges P (expand_mask m c.expand_mask) c.feather_pixels) ∧
    ∀ x y, (process_mask P c m .for_inpainting).px x y =
      255 - (feather_edges P (expand_mask m c.expand_mask) c.feather_pixels).px x y :=
  ⟨rfl, fun _ _ => rfl⟩

/-- C5: `MaskProcessor._expand_mask` is the identity for
`pixels ≤ 0`, and for `pixels > 0` the maximum filter of window size
`2*pixels + 1` never decreases an in-range pixel. -/
theorem C5_thm (m : Img) (p : Int) :
    (p ≤ 0 → expand_mask m p = m) ∧
    (0 < p → ∀ x, x < m.w → ∀ y, y < m.h → m.px x y ≤ (expand_mask m p).px x y) := by
  constructor
  · intro hp
    simp [expand_mask, if_pos hp]
  · intro hp x hx y hy
    have hnp : ¬ p ≤ 0 := by omega
    simp only [expand_mask, if_neg hnp, maxFilter]
    exact le_foldr_max (mem_windowVals m p.toNat x y hx hy) 0

/-- A small test mask for concrete evaluation. -/
def cMask5 : Img := ⟨2, 2, fun x y => 10 * x + y⟩

/-- C5 witness: both parts of `C5_thm` applied at concrete inputs. -/
theorem C5_witness :
    expand_mask cMask5 (-1) = cMask5 ∧
    cMask5.px 0 0 ≤ (expand_mask cMask5 1).px 0 0 :=
  ⟨(C5_thm cMask5 (-1)).1 (by decide),
   (C5_thm cMask5 1).2 (by decide) 0 (by decide) 0 (by decide)⟩

/-- C8: `ForegroundExtractor.get_bounding_box` returns `none` on an
all-zero mask, and otherwise a box `(x, y, width, height)` with positive
width and height that covers every nonzero pixel. -/
theorem C8_thm (m : Img) :
    ((∀ x, x < m.w → ∀ y, y < m.h → m.px x y = 0) → get_bounding_box m = none) ∧
    (∀ x, x < m.w → ∀ y, y < m.h → m.px x y ≠ 0 →
      ∃ a b bw bh, get_bounding_box m = some (a, b, bw, bh) ∧
        0 < bw ∧ 0 < bh ∧ a ≤ x ∧ x < a + bw ∧ b ≤ y ∧ y < b + bh) := by
  constructor
  · intro h
    simp [get_bounding_box, getbbox, nonzero_coords_eq_nil h]
  · intro x hx y hy hpx
    have hmem : (x, y) ∈ nonzero_coords m := mem_nonzero_coords hx hy hpx
    rcases hl : nonzero_coords m with _ | ⟨c, cs⟩
    · rw [hl] at hmem; cases hmem
    · rw [hl] at hmem
      have hxmem : x ∈ (c :: cs).map Prod.fst :=
        List.mem_map.mpr ⟨(x, y), hmem, rfl⟩
      have hymem : y ∈ (c :: cs).map Prod.snd :=
        List.mem_map.mpr ⟨(x, y), hmem, rfl⟩
      have hminx := foldr_min_le hxmem c.1
      have hmaxx := le_foldr_max hxmem 0
      have hminy := foldr_min_le hymem c.2
      have hmaxy := le_foldr_max hymem 0
      refine ⟨((c :: cs).map Prod.fst).foldr min c.1,
              ((c :: cs).map Prod.snd).foldr min c.2,
              ((c :: cs).map Prod.fst).foldr max 0 + 1
                - ((c :: cs).map Prod.fst).foldr min c.1,
              ((c :: cs).map Prod.snd).foldr max 0 + 1
                - ((c :: cs).map Prod.snd).foldr min c.2,
              ?_, by omega, by omega, by omega, by omega, by omega, by omega⟩
      simp [get_bounding_box, getbbox, hl]

/-- The all-zero mask. -/
def zMask : Img := ⟨2, 2, fun _ _ => 0⟩

/-- A mask with a single nonzero pixel at `(1, 2)`. -/
def oMask : Img := ⟨3, 3, fun x y => if x = 1 ∧ y = 2 then 7 else 0⟩

/-- C8 witness: both parts of `C8_thm` applied at concrete masks. -/
theorem C8_witness :
    get_bounding_box zMask = none ∧
    (∃ a b bw bh, get_bounding_box oMask = some (a, b, bw, bh) ∧
      0 < bw ∧ 0 < bh ∧ a ≤ 1 ∧ 1 < a + bw ∧ b ≤ 2 ∧ 2 < b + bh) :=
  ⟨(C8_thm zMask).1 (by decide),
   (C8_thm oMask).2 1 (by decide) 2 (by decide) (by decide)⟩

theorem shift_down_le {m : Img} {B : Nat} (hm : ∀ x y, m.px x y ≤ B) :
    ∀ x y, (shift_down 20 m).px x y ≤ B := by
  intro x y
  simp only [shift_down]
  by_cases h : y < 20
  · simp [h]
  · simpa [h] using hm x (y - 20)

/-- Darkening a byte value by a factor `1 - q` with `q ≥ 0`, then
flooring, never exceeds the value. -/
theorem floor_darken_le (b : Nat) (q : ℚ) (hq : 0 ≤ q) :
    (⌊(b : ℚ) * (1 - q)⌋).toNat ≤ b := by
  rw [Int.toNat_le]
  have hmul : (b : ℚ) * (1 - q) ≤ (b : ℚ) :=
    mul_le_of_le_one_right (by positivity) (by linarith)
  have h2 := Int.floor_mono hmul
  rwa [Int.floor_natCast] at h2

/-- C6: `CompositingEngine._add_shadow` only darkens: with shadow
opacity in `[0, 1]` and a byte-valued mask, every channel of every pixel
of the output is at most the corresponding input channel; and the shadow
mask is the input mask shifted down by 20 rows (top 20 rows zeroed) and
then Gaussian-blurred by `shadow_blur`. -/
theorem C6_thm (P : PILModel) (cc : CompConfig) (bg : RGBImg) (mask : Img)
    (h0 : 0 ≤ cc.shadow_opacity) (_h1 : cc.shadow_opacity ≤ 1)
    (_hm : ∀ x y, mask.px x y ≤ 255) :
    (∀ x y c, (add_shadow P cc bg mask).px x y c ≤ bg.px x y c) ∧
    shadow_mask P cc mask = P.gaussian_blur cc.shadow_blur (shift_down 20 mask) ∧
    (∀ x y, y < 20 → (shift_down 20 mask).px x y = 0) ∧
    (∀ x y, 20 ≤ y → (shift_down 20 mask).px x y = mask.px x (y - 20)) := by
  refine ⟨?_, rfl, fun x y hy => by simp [shift_down, hy],
    fun x y hy => by simp [shift_down, Nat.not_lt.mpr hy]⟩
  intro x y c
  show (⌊(bg.px x y c : ℚ) *
      (1 - ((shadow_mask P cc mask).px x y : ℚ) / 255 * cc.shadow_opacity)⌋).toNat
    ≤ bg.px x y c
  exact floor_darken_le _ _ (by positivity)

/-- A constant background for concrete evaluation. -/
def cBg6 : RGBImg := ⟨2, 25, fun _ _ _ => 50⟩

/-- A constant mask for concrete evaluation. -/
def cMask6 : Img := ⟨2, 25, fun _ _ => 100⟩

/-- C6 witness: `C6_thm` applied at a concrete background and mask. -/
theorem C6_witness :
    (add_shadow pilId {} cBg6 cMask6).px 0 0 0 ≤ cBg6.px 0 0 0 ∧
    (shift_down 20 cMask6).px 0 5 = 0 ∧
    (shift_down 20 cMask6).px 0 21 = cMask6.px 0 1 :=
  ⟨(C6_thm pilId {} cBg6 cMask6 (by norm_num : (0:ℚ) ≤ 3 / 10) (by norm_num : (3:ℚ) / 10 ≤ 1) (fun _ _ => by simp [cMask6])).1 0 0 0,
   (C6_thm pilId {} cBg6 cMask6 (by norm_num : (0:ℚ) ≤ 3 / 10) (by norm_num : (3:ℚ) / 10 ≤ 1) (fun _ _ => by simp [cMask6])).2.2.1 0 5
     (by decide),
   (C6_thm pilId {} cBg6 cMask6 (by norm_num : (0:ℚ) ≤ 3 / 10) (by norm_num : (3:ℚ) / 10 ≤ 1) (fun _ _ => by simp [cMask6])).2.2.2 0 21
     (by decide)⟩

/-- C7: `ImageLoader.load_image` produces an RGB image (RGBA inputs are
flattened onto white through their alpha); when the larger dimension of
the converted image exceeds `max_dimension` both dimensions are scaled
by `max_dimension / max(w, h)` and the larger output dimension is at most
`max_dimension`; otherwise the image is returned unchanged. -/
theorem C7_thm (P : PILModel) (maxD : Nat) (d : Decoded) :
    (∀ i, d = Decoded.rgba i → to_rgb d = flatten_white i) ∧
    (max (to_rgb d).w (to_rgb d).h ≤ maxD → load_image P maxD d = to_rgb d) ∧
    (maxD < max (to_rgb d).w (to_rgb d).h →
      (load_image P maxD d).w = (to_rgb d).w * maxD / max (to_rgb d).w (to_rgb d).h ∧
      (load_image P maxD d).h = (to_rgb d).h * maxD / max (to_rgb d).w (to_rgb d).h ∧
      max (load_image P maxD d).w (load_image P maxD d).h ≤ maxD) := by
  refine ⟨fun i hi => by rw [hi]; rfl, ?_, ?_⟩
  · intro h
    simp [load_image, resize_if_needed, Nat.not_lt.mpr h]
  · intro h
    have hm0 : 0 < max (to_rgb d).w (to_rgb d).h := by omega
    have hw : (to_rgb d).w * maxD / max (to_rgb d).w (to_rgb d).h ≤ maxD := by
      have h1 : (to_rgb d).w * maxD ≤ max (to_rgb d).w (to_rgb d).h * maxD :=
        Nat.mul_le_mul_right _ (le_max_left _ _)
      have h2 := Nat.div_le_div_right (c := max (to_rgb d).w (to_rgb d).h) h1
      rwa [Nat.mul_div_cancel_left _ hm0] at h2
    have hh : (to_rgb d).h * maxD / max (to_rgb d).w (to_rgb d).h ≤ maxD := by
      have h1 : (to_rgb d).h * maxD ≤ max (to_rgb d).w (to_rgb d).h * maxD :=
        Nat.mul_le_mul_right _ (le_max_right _ _)
      have h2 := Nat.div_le_div_right (c := max (to_rgb d).w (to_rgb d).h) h1
      rwa [Nat.mul_div_cancel_left _ hm0] at h2
    refine ⟨by simp [load_image, resize_if_needed, h, P.resize_RGB_w],
            by simp [load_image, resize_if_needed, h, P.resize_RGB_h], ?_⟩
    simp only [load_image, resize_if_needed, if_pos h, P.resize_RGB_w, P.resize_RGB_h]
    omega

/-- A 4×2 image (larger dimension 4) for the downscaling case. -/
def cRGB7 : RGBImg := ⟨4, 2, fun _ _ _ => 9⟩

/-- A 1×1 image for the no-resize case. -/
def cSmall7 : RGBImg := ⟨1, 1, fun _ _ _ => 9⟩

/-- A 1×1 RGBA image for the flattening case. -/
def cRGBA7 : RGBAImg := ⟨1, 1, fun _ _ _ => 10, fun _ _ => 100⟩

/-- C7 witness: `C7_thm` applied at concrete decoded images. -/
theorem C7_witness :
    to_rgb (Decoded.rgba cRGBA7) = flatten_white cRGBA7 ∧
    load_image pilId 2048 (Decoded.rgb cSmall7) = cSmall7 ∧
    (load_image pilId 2 (Decoded.rgb cRGB7)).w = 2 ∧
    (load_image pilId 2 (Decoded.rgb cRGB7)).h = 1 ∧
    max (load_image pilId 2 (Decoded.rgb cRGB7)).w
      (load_image pilId 2 (Decoded.rgb cRGB7)).h ≤ 2 :=
  ⟨(C7_thm pilId 2048 (Decoded.rgba cRGBA7)).1 cRGBA7 rfl,
   (C7_thm pilId 2048 (Decoded.rgb cSmall7)).2.1 (by decide),
   ((C7_thm pilId 2 (Decoded.rgb cRGB7)).2.2 (by decide)).1,
   ((C7_thm pilId 2 (Decoded.rgb cRGB7)).2.2 (by decide)).2.1,
   ((C7_thm pilId 2 (Decoded.rgb cRGB7)).2.2 (by decide)).2.2⟩

theorem used_background_eq_resize (P : PILModel) (fg : RGBAImg) (bg : RGBImg)
    (h : ¬(fg.w = bg.w ∧ fg.h = bg.h)) :
    used_background P fg bg = P.resize_RGB fg.w fg.h bg := if_neg h

theorem used_background_resize_fixed (P : PILModel) (fg : RGBAImg) (bg : RGBImg) :
    used_background P fg (P.resize_RGB fg.w fg.h bg) = P.resize_RGB fg.w fg.h bg :=
  if_pos ⟨(P.resize_RGB_w _ _ _).symm, (P.resize_RGB_h _ _ _).symm⟩

theorem used_mask_eq_resize (P : PILModel) (fg : RGBAImg) (mk : Img)
    (h : ¬(mk.w = fg.w ∧ mk.h = fg.h)) :
    used_mask P fg (some mk) = P.resize_L fg.w fg.h mk := if_neg h

theorem used_mask_resize_fixed (P : PILModel) (fg : RGBAImg) (mk : Img) :
    used_mask P fg (some (P.resize_L fg.w fg.h mk)) = P.resize_L fg.w fg.h mk :=
  if_pos ⟨P.resize_L_w _ _ _, P.resize_L_h _ _ _⟩

/-- C9: `CompositingEngine.composite` is total on size mismatches and
its result always has the foreground's size; a background or mask of a
different size is first LANCZOS-resized to the foreground size, and the
composite of the original inputs equals the composite of the resized
ones. -/
theorem C9_thm (P : PILModel) (cc : CompConfig) (fg : RGBAImg) (bg : RGBImg)
    (mask0 : Option Img) :
    (composite P cc fg bg mask0).w = fg.w ∧
    (composite P cc fg bg mask0).h = fg.h ∧
    (¬(fg.w = bg.w ∧ fg.h = bg.h) →
      composite P cc fg bg mask0 = composite P cc fg (P.resize_RGB fg.w fg.h bg) mask0) ∧
    (∀ mk, mask0 = some mk → ¬(mk.w = fg.w ∧ mk.h = fg.h) →
      composite P cc fg bg mask0 =
        composite P cc fg bg (some (P.resize_L fg.w fg.h mk))) := by
  refine ⟨?_, ?_, ?_, ?_⟩
  · by_cases h : cc.color_matching <;> simp [composite, match_colors, h]
  · by_cases h : cc.color_matching <;> simp [composite, match_colors, h]
  · intro h
    have hbg : used_background P fg bg =
        used_background P fg (P.resize_RGB fg.w fg.h bg) := by
      rw [used_background_eq_resize P fg bg h, used_background_resize_fixed]
    simp only [composite, shadowed_background, hbg]
  · intro mk hmk h
    subst hmk
    have hm : used_mask P fg (some mk) =
        used_mask P fg (some (P.resize_L fg.w fg.h mk)) := by
      rw [used_mask_eq_resize P fg mk h, used_mask_resize_fixed]
    simp only [composite, shadowed_background, refined_mask, hm]

/-- An opaque 1×1 foreground for concrete evaluation. -/
def cFg9 : RGBAImg := ⟨1, 1, fun _ _ _ => 200, fun _ _ => 255⟩

/-- A 2×1 background whose size differs from the foreground's. -/
def cBg9 : RGBImg := ⟨2, 1, fun _ _ _ => 50⟩

/-- A 2×2 mask whose size differs from the foreground's. -/
def cMk9 : Img := ⟨2, 2, fun _ _ => 255⟩

/-- C9 witness: the resize branches of `C9_thm` applied at concretely
mismatched inputs. -/
theorem C9_witness :
    composite pilId {} cFg9 cBg9 none =
      composite pilId {} cFg9 (pilId.resize_RGB cFg9.w cFg9.h cBg9) none ∧
    composite pilId {} cFg9 cBg9 (some cMk9) =
      composite pilId {} cFg9 cBg9 (some (pilId.resize_L cFg9.w cFg9.h cMk9)) :=
  ⟨(C9_thm pilId {} cFg9 cBg9 none).2.2.1 (by decide),
   (C9_thm pilId {} cFg9 cBg9 (some cMk9)).2.2.2 cMk9 rfl (by decide)⟩

/-- The blended pixel of `CompositingEngine.composite` (the
color-matching pass is the identity either way). -/
theorem composite_px (P : PILModel) (cc : CompConfig) (fg : RGBAImg) (bg : RGBImg)
    (mask0 : Option Img) (x y : Nat) (c : Fin 3) :
    (composite P cc fg bg mask0).px x y c =
      muldiv255 ((shadowed_background P cc fg bg mask0).px x y c)
          (255 - (refined_mask P cc fg mask0).px x y)
        + muldiv255 ((premultiplied fg).px x y c)
            ((refined_mask P cc fg mask0).px x y) := by
  by_cases h : cc.color_matching <;> simp [composite, match_colors, h]

theorem used_mask_le (P : PILModel) (fg : RGBAImg) (mask0 : Option Img)
    (hal : ∀ x y, fg.alpha x y ≤ 255)
    (hmk : ∀ mk, mask0 = some mk → ∀ x y, mk.px x y ≤ 255) :
    ∀ x y, (used_mask P fg mask0).px x y ≤ 255 := by
  cases mask0 with
  | none => exact hal
  | some mk =>
    intro x y
    have h := hmk mk rfl
    simp only [used_mask]
    split
    · exact h x y
    · exact P.resize_L_le _ _ _ h x y

theorem refined_mask_le (P : PILModel) (cc : CompConfig) (fg : RGBAImg)
    (mask0 : Option Img) (hal : ∀ x y, fg.alpha x y ≤ 255)
    (hmk : ∀ mk, mask0 = some mk → ∀ x y, mk.px x y ≤ 255) :
    ∀ x y, (refined_mask P cc fg mask0).px x y ≤ 255 := by
  intro x y
  simp only [refined_mask]
  split
  · exact P.gaussian_blur_le _ _ 255 (used_mask_le P fg mask0 hal hmk) x y
  · exact used_mask_le P fg mask0 hal hmk x y

theorem used_background_le (P : PILModel) (fg : RGBAImg) (bg : RGBImg)
    (hbg : ∀ x y c, bg.px x y c ≤ 255) :
    ∀ x y c, (used_background P fg bg).px x y c ≤ 255 := by
  intro x y c
  simp only [used_background]
  split
  · exact hbg x y c
  · exact P.resize_RGB_le _ _ _ hbg x y c

/-- The shadow pass never brightens a pixel. -/
theorem add_shadow_px_le (P : PILModel) (cc : CompConfig) (bg : RGBImg) (mask : Img)
    (hq : 0 ≤ cc.shadow_opacity) :
    ∀ x y c, (add_shadow P cc bg mask).px x y c ≤ bg.px x y c := fun x y c =>
  floor_darken_le _ _
    (mul_nonneg (div_nonneg (Nat.cast_nonneg _) (by norm_num)) hq)

theorem shadowed_background_le (P : PILModel) (cc : CompConfig) (fg : RGBAImg)
    (bg : RGBImg) (mask0 : Option Img) (hbg : ∀ x y c, bg.px x y c ≤ 255)
    (hq : 0 ≤ cc.shadow_opacity) :
    ∀ x y c, (shadowed_background P cc fg bg mask0).px x y c ≤ 255 := by
  intro x y c
  simp only [shadowed_background]
  split
  · exact le_trans (add_shadow_px_le P cc _ _ hq x y c)
      (used_background_le P fg bg hbg x y c)
  · exact used_background_le P fg bg hbg x y c

theorem premultiplied_le (fg : RGBAImg) (hfg : ∀ x y c, fg.rgb x y c ≤ 255)
    (hal : ∀ x y, fg.alpha x y ≤ 255) :
    ∀ x y c, (premultiplied fg).px x y c ≤ 255 := fun x y c =>
  muldiv255_le _ _ (hfg x y c) (hal x y)

/-- The blend formula exactly as the claim states it:
`out = fg * (m/255) + shadowed_bg * (1 - m/255)`, with `fg` the
foreground RGBA image's colour channels.  (Modelled from the claim's own
wording, for comparison with the embedded `composite`.) -/
def claimed_blend (fg : RGBAImg) (sbg : RGBImg) (m : Img) (x y : Nat) (c : Fin 3) : ℚ :=
  (fg.rgb x y c : ℚ) * ((m.px x y : ℚ) / 255)
    + (sbg.px x y c : ℚ) * (1 - (m.px x y : ℚ) / 255)

/-- A 1×1 foreground whose colour is 200 but which is fully transparent
(alpha 0). -/
def cFg3 : RGBAImg := ⟨1, 1, fun _ _ _ => 200, fun _ _ => 0⟩

/-- A 1×1 background of value 50. -/
def cBg3 : RGBImg := ⟨1, 1, fun _ _ _ => 50⟩

/-- A 1×1 all-255 mask. -/
def cMk3 : Img := ⟨1, 1, fun _ _ => 255⟩

/-- C3 counterexample: with the default configuration (shadow generation
and edge refinement enabled), on a fully transparent foreground of
colour 200, a background of 50 and an all-255 mask, the code returns 0
while the claimed formula `fg*(m/255) + shadowed_bg*(1 - m/255)` gives
200: `composite` blends the foreground premultiplied by its own alpha,
not the foreground colour itself. -/
theorem C3_counterexample :
    (composite pilId {} cFg3 cBg3 (some cMk3)).px 0 0 0 = 0 ∧
    claimed_blend cFg3 (shadowed_background pilId {} cFg3 cBg3 (some cMk3))
      (refined_mask pilId {} cFg3 (some cMk3)) 0 0 0 = 200 ∧
    ((composite pilId {} cFg3 cBg3 (some cMk3)).px 0 0 0 : ℚ) ≠
      claimed_blend cFg3 (shadowed_background pilId {} cFg3 cBg3 (some cMk3))
        (refined_mask pilId {} cFg3 (some cMk3)) 0 0 0 := by
  have hrm : (refined_mask pilId {} cFg3 (some cMk3)).px 0 0 = 255 := rfl
  have hsb : (shadowed_background pilId {} cFg3 cBg3 (some cMk3)).px 0 0 0 = 50 := by
    show (⌊(50 : ℚ) * (1 - ((0 : ℕ) : ℚ) / 255 * (3 / 10))⌋).toNat = 50
    norm_num
    decide
  have hout : (composite pilId {} cFg3 cBg3 (some cMk3)).px 0 0 0 = 0 := by
    rw [composite_px, hrm, hsb]
    decide
  have hcb : claimed_blend cFg3 (shadowed_background pilId {} cFg3 cBg3 (some cMk3))
      (refined_mask pilId {} cFg3 (some cMk3)) 0 0 0 = 200 := by
    unfold claimed_blend
    rw [hrm, hsb]
    norm_num [cFg3]
  refine ⟨hout, hcb, ?_⟩
  rw [hout, hcb]
  norm_num

/-- C3 (amended): with shadow generation and edge refinement enabled,
`CompositingEngine.composite` first darkens the (size-matched)
background under the synthesized shadow, and then per-pixel blends the
foreground premultiplied by its own alpha (pasted over black) with the
shadowed background, selected by the edge-refined mask `m`:
`255 * out` is within 254 (i.e. within one grey level) of
`fg_premult * m + shadowed_bg * (255 - m)`. -/
theorem C3_thm (P : PILModel) (cc : CompConfig) (fg : RGBAImg) (bg : RGBImg)
    (mask0 : Option Img)
    (hedge : cc.edge_refinement = true) (hshad : cc.shadow_generation = true)
    (hq : 0 ≤ cc.shadow_opacity)
    (hfg : ∀ x y c, fg.rgb x y c ≤ 255) (hal : ∀ x y, fg.alpha x y ≤ 255)
    (hbg : ∀ x y c, bg.px x y c ≤ 255)
    (hmk : ∀ mk, mask0 = some mk → ∀ x y, mk.px x y ≤ 255) :
    shadowed_background P cc fg bg mask0 =
      add_shadow P cc (used_background P fg bg) (refined_mask P cc fg mask0) ∧
    refined_mask P cc fg mask0 = P.gaussian_blur 1 (used_mask P fg mask0) ∧
    ∀ x y c,
      ((255 : ℤ) * ((composite P cc fg bg mask0).px x y c : ℤ)
        - (((premultiplied fg).px x y c : ℤ) * ((refined_mask P cc fg mask0).px x y : ℤ)
           + ((shadowed_background P cc fg bg mask0).px x y c : ℤ)
             * (255 - ((refined_mask P cc fg mask0).px x y : ℤ)))).natAbs ≤ 254 := by
  refine ⟨by simp [shadowed_background, hshad], by simp [refined_mask, hedge], ?_⟩
  intro x y c
  have hM := refined_mask_le P cc fg mask0 hal hmk x y
  have hS := shadowed_background_le P cc fg bg mask0 hbg hq x y c
  have hF := premultiplied_le fg hfg hal x y c
  have h1 := muldiv255_bound ((shadowed_background P cc fg bg mask0).px x y c)
    (255 - (refined_mask P cc fg mask0).px x y) hS (by omega)
  have h2 := muldiv255_bound ((premultiplied fg).px x y c)
    ((refined_mask P cc fg mask0).px x y) hF hM
  rw [Nat.cast_sub hM] at h1
  push_cast at h1
  rw [composite_px]
  omega

/-- A fully opaque 1×1 foreground. -/
def cFg3w : RGBAImg := ⟨1, 1, fun _ _ _ => 200, fun _ _ => 255⟩

/-- C3 witness: `C3_thm` applied at concrete inputs with the default
configuration. -/
theorem C3_witness :
    shadowed_background pilId {} cFg3w cBg3 (some cMk3) =
      add_shadow pilId {} (used_background pilId cFg3w cBg3)
        (refined_mask pilId {} cFg3w (some cMk3)) ∧
    ((255 : ℤ) * ((composite pilId {} cFg3w cBg3 (some cMk3)).px 0 0 0 : ℤ)
      - (((premultiplied cFg3w).px 0 0 0 : ℤ)
          * ((refined_mask pilId {} cFg3w (some cMk3)).px 0 0 : ℤ)
         + ((shadowed_background pilId {} cFg3w cBg3 (some cMk3)).px 0 0 0 : ℤ)
           * (255 - ((refined_mask pilId {} cFg3w (some cMk3)).px 0 0 : ℤ)))).natAbs
      ≤ 254 :=
  ⟨(C3_thm pilId {} cFg3w cBg3 (some cMk3) rfl rfl
      (by norm_num : (0 : ℚ) ≤ 3 / 10) (fun _ _ _ => by simp [cFg3w])
      (fun _ _ => by simp [cFg3w]) (fun _ _ _ => by simp [cBg3])
      (fun mk hmk => by cases hmk; exact fun _ _ => by simp [cMk3])).1,
   (C3_thm pilId {} cFg3w cBg3 (some cMk3) rfl rfl
      (by norm_num : (0 : ℚ) ≤ 3 / 10) (fun _ _ _ => by simp [cFg3w])
      (fun _ _ => by simp [cFg3w]) (fun _ _ _ => by simp [cBg3])
      (fun mk hmk => by cases hmk; exact fun _ _ => by simp [cMk3])).2.2 0 0 0⟩

/-- C1 counterexample: a concrete successful run of
`Method1ControlNetInpaint.generate` contains no compositing stage at
all — the inpainting output is saved directly. -/
theorem C1_counterexample :
    Stage.compositeFg ∉ (method1_generate testBackend {} "input.png" none).2 := by
  decide

/-- C1 (amended): Method 2 obtains a background by the external
text-to-image call and ends by compositing the extracted foreground over
it before saving; Method 1 obtains its final image directly from the
ControlNet inpainting call on the original image and the prepared
inpainting mask (the product is preserved by the mask inside the
diffusion model) and saves that result without an explicit compositing
step. -/
theorem C1_thm (B : Backend) (cfg : Config) (path : String) (prompt : Option String) :
    (method2_generate B cfg path prompt).1 =
      composite B.pil cfg.comp_cfg
        (extract_foreground B (load_image B.pil cfg.max_dimension (B.decode path))).1
        (generate_background B
          (match prompt with
            | none => B.auto_prompt2 (load_image B.pil cfg.max_dimension (B.decode path))
            | some p => B.build_prompt2 p)
          (load_image B.pil cfg.max_dimension (B.decode path)).w
          (load_image B.pil cfg.max_dimension (B.decode path)).h)
        (some (process_mask B.pil cfg.mask_cfg
          (extract_foreground B (load_image B.pil cfg.max_dimension (B.decode path))).2
          .for_compositing)) ∧
    (method2_generate B cfg path prompt).2 =
      [.load, .extractFg, .maskProc, .promptGen, .nanoBg, .compositeFg, .saveOut] ∧
    (method1_generate B cfg path prompt).1 =
      B.inpaint (load_image B.pil cfg.max_dimension (B.decode path))
        (process_mask B.pil cfg.mask_cfg
          (extract_foreground B (load_image B.pil cfg.max_dimension (B.decode path))).2
          .for_inpainting)
        (match prompt with
          | none => B.auto_prompt1 (load_image B.pil cfg.max_dimension (B.decode path))
          | some p => B.build_prompt1 p) ∧
    Stage.compositeFg ∉ (method1_generate B cfg path prompt).2 :=
  ⟨rfl, rfl, rfl, by
    show Stage.compositeFg ∉ [Stage.load, Stage.extractFg, Stage.maskProc,
      Stage.promptGen, Stage.inpaintBg, Stage.saveOut]
    decide⟩

/-- C4: both `generate` methods execute their stages in the fixed order
(load, extract foreground, process mask, build prompt, obtain
background via inpainting (Method 1) or generation-plus-composite
(Method 2), save), and each stage's input is the output of an earlier
stage: the end-to-end result is the literal composition of the stage
functions. -/
theorem C4_thm (B : Backend) (cfg : Config) (path : String) (prompt : Option String) :
    (method1_generate B cfg path prompt).2 =
      [.load, .extractFg, .maskProc, .promptGen, .inpaintBg, .saveOut] ∧
    (method2_generate B cfg path prompt).2 =
      [.load, .extractFg, .maskProc, .promptGen, .nanoBg, .compositeFg, .saveOut] ∧
    (let original := load_image B.pil cfg.max_dimension (B.decode path)
     let ex := extract_foreground B original
     let inpaint_mask := process_mask B.pil cfg.mask_cfg ex.2 .for_inpainting
     let final_prompt :=
       match prompt with
       | none => B.auto_prompt1 original
       | some p => B.build_prompt1 p
     (method1_generate B cfg path prompt).1 =
       B.inpaint original inpaint_mask final_prompt) ∧
    (let original := load_image B.pil cfg.max_dimension (B.decode path)
     let ex := extract_foreground B original
     let composite_mask := process_mask B.pil cfg.mask_cfg ex.2 .for_compositing
     let background_prompt :=
       match prompt with
       | none => B.auto_prompt2 original
       | some p => B.build_prompt2 p
     let background := generate_background B background_prompt original.w original.h
     (method2_generate B cfg path prompt).1 =
       composite B.pil cfg.comp_cfg ex.1 background (some composite_mask)) :=
  ⟨rfl, rfl, rfl, rfl⟩

end CPG
